import Mathlib

/-!
Verification of the traffic-management specification and the loan-application
front end of the Loan-approval-disapproval repository.

Part 1 embeds the React `LoanApplication` multi-step form
(`src/unnamed/part_003`) and the PAN-masking logic of `PrivacyDemo`
(`src/unnamed/part_000`).  JavaScript strings are embedded as `List Char`;
the value of an HTML `<input type="number">` is embedded as `Option ℚ`
(`none` for the empty string: the DOM value-sanitization algorithm makes any
other non-numeric state unobservable, and `parseFloat` on the sanitized
value is exact on rationals).

Part 2 models the traffic-management layer (load balancer, rate limiter,
health checker, scaling controller).  The Python modules
`infrastructure/load_balancer.py`, `infrastructure/scaling.py` and
`middleware/rate_limiting.py` named by `DEPLOYMENT.md` are not part of the
source tree, so those components are modelled from the specification text,
as marked on each definition.
-/

/-- Set of characters treated as trimmable whitespace, as in JavaScript
`String.prototype.trim` (ASCII portion). -/
def jsWhitespaceChar (c : Char) : Bool :=
  c == ' ' || c == '\t' || c == '\n' || c == '\r' || c == '\x0b' || c == '\x0c'

/-- JavaScript `s.trim()` on a string embedded as a character list. -/
def jsTrim (l : List Char) : List Char :=
  ((l.dropWhile jsWhitespaceChar).reverse.dropWhile jsWhitespaceChar).reverse

/-- A character matched by the regex class `[^\s@]`. -/
def emailGoodChar (c : Char) : Bool :=
  !jsWhitespaceChar c && c != '@'

/-- Whole-string test of the email regex `/^[^\s@]+@[^\s@]+\.[^\s@]+$/` from
`validateStep` case 1.  The local part is everything before the first `@`
(the class `[^\s@]` cannot match `@`); after the `@` the string must consist
of `[^\s@]` characters and contain a dot that is neither first nor last. -/
def emailRegexTest (l : List Char) : Bool :=
  let localPart := l.takeWhile (fun c => c != '@')
  match l.drop localPart.length with
  | '@' :: domainPart =>
      !localPart.isEmpty && localPart.all emailGoodChar &&
      domainPart.all emailGoodChar && ((domainPart.drop 1).dropLast).contains '.'
  | _ => false

/-- Whole-string test of the phone regex `/^[6-9]\d{9}$/` from
`validateStep` case 1. -/
def phoneRegexTest (l : List Char) : Bool :=
  match l with
  | c :: rest =>
      (decide ('6' ≤ c) && decide (c ≤ '9')) && rest.length == 9 &&
      rest.all Char.isDigit
  | [] => false

/-- A character matched by the regex class `[A-Z]`. -/
def upperAlpha (c : Char) : Bool :=
  decide ('A' ≤ c) && decide (c ≤ 'Z')

/-- Whole-string test of the PAN regex `/^[A-Z]{5}[0-9]{4}[A-Z]{1}$/` from
`validateStep` case 1 (applied to the upper-cased input). -/
def panRegexTest (l : List Char) : Bool :=
  match l with
  | [a, b, c, d, e, f, g, h, i, j] =>
      [a, b, c, d, e].all upperAlpha && [f, g, h, i].all Char.isDigit &&
      upperAlpha j
  | _ => false

/-- Whole-string test of the pincode regex `/^\d{6}$/` from
`validateStep` case 1. -/
def pincodeRegexTest (l : List Char) : Bool :=
  l.length == 6 && l.all Char.isDigit

/-- JavaScript `s.toUpperCase()` on the ASCII range. -/
def jsToUpper (l : List Char) : List Char :=
  l.map Char.toUpper

/-- The `formData` state object of the `LoanApplication` component
(`src/unnamed/part_003`, lines 15-45).  Text inputs and selects are
character lists; the three `<input type="number">` fields are `Option ℚ`;
the two consent checkboxes are booleans. -/
structure FormData where
  fullName : List Char
  email : List Char
  phone : List Char
  dateOfBirth : List Char
  panNumber : List Char
  aadhaarNumber : List Char
  address : List Char
  city : List Char
  state : List Char
  pincode : List Char
  employmentType : List Char
  companyName : List Char
  designation : List Char
  workExperience : List Char
  monthlyIncome : Option ℚ
  loanAmount : Option ℚ
  loanPurpose : List Char
  loanTenure : List Char
  existingLoans : List Char
  existingEMI : Option ℚ
  agreeTerms : Bool
  consentDataProcessing : Bool
deriving DecidableEq

/-- The initial `useState` value of `formData`: every text field empty,
`existingLoans` preset to `'no'`, checkboxes unchecked. -/
def initialFormData : FormData where
  fullName := []
  email := []
  phone := []
  dateOfBirth := []
  panNumber := []
  aadhaarNumber := []
  address := []
  city := []
  state := []
  pincode := []
  employmentType := []
  companyName := []
  designation := []
  workExperience := []
  monthlyIncome := none
  loanAmount := none
  loanPurpose := []
  loanTenure := []
  existingLoans := ['n', 'o']
  existingEMI := none
  agreeTerms := false
  consentDataProcessing := false

/-- The `newErrors` object built by `validateStep` (`src/unnamed/part_003`,
lines 66-136), as the list of `(field, message)` pairs in insertion order.
An empty result means validation passed. -/
def validateStepErrors (step : Nat) (fd : FormData) : List (String × String) :=
  match step with
  | 1 =>
      (if (jsTrim fd.fullName).isEmpty then
        [("fullName", "Full name is required")] else [])
      ++ (if (jsTrim fd.email).isEmpty then
            [("email", "Email is required")]
          else if !emailRegexTest fd.email then
            [("email", "Invalid email format")] else [])
      ++ (if (jsTrim fd.phone).isEmpty then
            [("phone", "Phone number is required")]
          else if !phoneRegexTest fd.phone then
            [("phone", "Invalid phone number")] else [])
      ++ (if fd.dateOfBirth.isEmpty then
            [("dateOfBirth", "Date of birth is required")] else [])
      ++ (if (jsTrim fd.panNumber).isEmpty then
            [("panNumber", "PAN number is required")]
          else if !panRegexTest (jsToUpper fd.panNumber) then
            [("panNumber", "Invalid PAN format (e.g., ABCDE1234F)")] else [])
      ++ (if (jsTrim fd.address).isEmpty then
            [("address", "Address is required")] else [])
      ++ (if (jsTrim fd.city).isEmpty then
            [("city", "City is required")] else [])
      ++ (if (jsTrim fd.state).isEmpty then
            [("state", "State is required")] else [])
      ++ (if (jsTrim fd.pincode).isEmpty then
            [("pincode", "Pincode is required")]
          else if !pincodeRegexTest fd.pincode then
            [("pincode", "Invalid pincode")] else [])
  | 2 =>
      (if fd.employmentType.isEmpty then
        [("employmentType", "Employment type is required")] else [])
      ++ (if (jsTrim fd.companyName).isEmpty then
            [("companyName", "Company name is required")] else [])
      ++ (if (jsTrim fd.designation).isEmpty then
            [("designation", "Designation is required")] else [])
      ++ (if fd.workExperience.isEmpty then
            [("workExperience", "Work experience is required")] else [])
      ++ (match fd.monthlyIncome with
          | none => [("monthlyIncome", "Monthly income is required")]
          | some q =>
              if q < 15000 then
                [("monthlyIncome", "Minimum income should be ₹15,000")]
              else [])
  | 3 =>
      (match fd.loanAmount with
       | none => [("loanAmount", "Loan amount is required")]
       | some q =>
           if q < 50000 then
             [("loanAmount", "Minimum loan amount is ₹50,000")]
           else if 5000000 < q then
             [("loanAmount", "Maximum loan amount is ₹50,00,000")]
           else [])
      ++ (if fd.loanPurpose.isEmpty then
            [("loanPurpose", "Loan purpose is required")] else [])
      ++ (if fd.loanTenure.isEmpty then
            [("loanTenure", "Loan tenure is required")] else [])
      ++ (if fd.existingLoans == ['y', 'e', 's'] && fd.existingEMI == none then
            [("existingEMI", "Existing EMI amount is required")] else [])
  | 4 =>
      (if !fd.agreeTerms then
        [("agreeTerms", "You must agree to the terms")] else [])
      ++ (if !fd.consentDataProcessing then
            [("consentDataProcessing", "Data processing consent is required")]
          else [])
  | _ => []

/-- Boolean result of `validateStep`: true when `newErrors` stayed empty. -/
def validateStep (step : Nat) (fd : FormData) : Bool :=
  (validateStepErrors step fd).isEmpty

/-- `handleNext` (`src/unnamed/part_003`, lines 138-142):
`if (validateStep(currentStep)) setCurrentStep(prev => Math.min(prev + 1, 4))`. -/
def handleNext (step : Nat) (fd : FormData) : Nat :=
  if validateStep step fd then min (step + 1) 4 else step

/-- `handlePrevious` (`src/unnamed/part_003`, lines 144-146):
`setCurrentStep(prev => Math.max(prev - 1, 1))`. -/
def handlePrevious (step : Nat) : Nat :=
  max (step - 1) 1

/-- One user interaction with the step navigation: a Next click against the
form data currently entered, or a Previous click. -/
inductive FormEvent where
  | nextClick (fd : FormData)
  | prevClick
deriving DecidableEq

/-- Effect of one navigation click on `currentStep`. -/
def applyEvent (step : Nat) : FormEvent → Nat
  | .nextClick fd => handleNext step fd
  | .prevClick => handlePrevious step

/-- The `currentStep` value reached from the initial state (`useState(1)`)
after a sequence of Next/Previous clicks. -/
def runForm (events : List FormEvent) : Nat :=
  events.foldl applyEvent 1

/-- PAN masking of the review step (`src/unnamed/part_003`, line 627):
`panNumber.substring(0, 4) + '****' + panNumber.slice(-1)`. -/
def maskPanReview (pan : List Char) : List Char :=
  pan.take 4 ++ ['*', '*', '*', '*'] ++ pan.drop (pan.length - 1)

/-- PAN branch of `handleCustomMask` (`src/unnamed/part_000`, lines 554-555):
`customData.pan ? customData.pan.slice(0, 4) + '****' + customData.pan.slice(-1) : null`. -/
def maskPanCustom (pan : List Char) : Option (List Char) :=
  if pan.isEmpty then none
  else some (pan.take 4 ++ ['*', '*', '*', '*'] ++ pan.drop (pan.length - 1))

/-- Modelled from the spec: the per-instance hysteresis states of
`Health state machine` (spec §3), for the health checker missing from
`src/` (spec §4.4 names `infrastructure` modules absent from the tree). -/
inductive HealthState where
  | healthy
  | suspect
  | unhealthy
deriving DecidableEq, BEq

/-- Position of a state along the chain `UNHEALTHY - SUSPECT - HEALTHY`. -/
def healthRank : HealthState → Nat
  | .unhealthy => 0
  | .suspect => 1
  | .healthy => 2

/-- Modelled from the spec: one step along `HEALTHY → SUSPECT → UNHEALTHY`. -/
def stepTowardUnhealthy : HealthState → HealthState
  | .healthy => .suspect
  | .suspect => .unhealthy
  | .unhealthy => .unhealthy

/-- Modelled from the spec: one step along `UNHEALTHY → SUSPECT → HEALTHY`. -/
def stepTowardHealthy : HealthState → HealthState
  | .unhealthy => .suspect
  | .suspect => .healthy
  | .healthy => .healthy

/-- Modelled from the spec: the health-check thresholds of §4.4/§6, for the
health checker missing from `src/`. -/
structure HealthConfig where
  failureThreshold : Nat
  successThreshold : Nat
deriving DecidableEq

/-- Modelled from the spec: the per-instance health record of §3 — current
state plus the consecutive-failure and consecutive-success counters. -/
structure HealthTrack where
  state : HealthState
  consecFail : Nat
  consecSucc : Nat
deriving DecidableEq

/-- Modelled from the spec: the state-transition rule of §4.4, for the
health checker missing from `src/`.  A failure increments the
consecutive-failure counter and resets the consecutive-success counter;
reaching `failure_threshold` moves the state one step toward `UNHEALTHY`
and clears the counters.  A success is symmetric toward `HEALTHY`. -/
def markProbeResult (cfg : HealthConfig) (h : HealthTrack) (success : Bool) :
    HealthTrack :=
  if success then
    if cfg.successThreshold ≤ h.consecSucc + 1 then
      { state := stepTowardHealthy h.state, consecFail := 0, consecSucc := 0 }
    else
      { state := h.state, consecFail := 0, consecSucc := h.consecSucc + 1 }
  else
    if cfg.failureThreshold ≤ h.consecFail + 1 then
      { state := stepTowardUnhealthy h.state, consecFail := 0, consecSucc := 0 }
    else
      { state := h.state, consecFail := h.consecFail + 1, consecSucc := 0 }

/-- Modelled from the spec: the `BackendInstance` record of §3 restricted to
the fields the load balancer reads (id, static weight, health state, active
connections), for the registry/load balancer missing from `src/`. -/
structure BackendInstance where
  id : Nat
  weight : Nat
  health : HealthState
  activeConns : Nat
deriving DecidableEq

/-- Modelled from the spec: the registry snapshot of §3 — the immutable list
of instance records one selection decision operates on. -/
def Snapshot : Type := List BackendInstance

/-- The healthy subset of a snapshot that selection strategies draw from. -/
def healthySubset (s : Snapshot) : List BackendInstance :=
  List.filter (fun inst => inst.health == HealthState.healthy) s

/-- Modelled from the spec: the closed set of strategies of §4.2/§6. -/
inductive Strategy where
  | round_robin
  | least_conn
  | ip_hash
  | weighted
deriving DecidableEq

/-- Modelled from the spec: mutable strategy state — the round-robin cyclic
cursor and the weighted strategy's deficit-credit table (id, balance). -/
structure LBState where
  cursor : Nat
  credits : List (Nat × ℤ)
deriving DecidableEq

/-- Modelled from the spec: `round_robin` of §4.2 — a cyclic cursor over the
healthy subset that advances by one on every selection, wraps at the end of
the list, and is reduced modulo the healthy count on pool-size change. -/
def selectRR (s : Snapshot) (cursor : Nat) : Option BackendInstance × Nat :=
  let hs := healthySubset s
  if hs.isEmpty then (none, cursor)
  else (hs.get? (cursor % hs.length), (cursor + 1) % hs.length)

/-- One comparison step of the `least_conn` scan: keep the candidate with
fewer active connections, or on a tie the one with the lower id. -/
def lcStep (best x : BackendInstance) : BackendInstance :=
  if x.activeConns < best.activeConns ||
     (x.activeConns == best.activeConns && x.id < best.id) then x
  else best

/-- Modelled from the spec: `least_conn` of §4.2 — the healthy instance with
the minimum active-connection count, ties broken by lowest instance id. -/
def selectLeastConn (s : Snapshot) : Option BackendInstance :=
  match healthySubset s with
  | [] => none
  | h :: t => some (t.foldl lcStep h)

/-- The minimality order realised by `lcStep`: fewer active connections, or
equally many with an id that is not larger. -/
def lcLE (a b : BackendInstance) : Prop :=
  a.activeConns < b.activeConns ∨
  (a.activeConns = b.activeConns ∧ a.id ≤ b.id)

/-- Modelled from the spec: a stable hash of the client's address (§4.2
`ip_hash`); a 32-bit polynomial rolling hash of the key's characters. -/
def stableHash (key : List Char) : Nat :=
  key.foldl (fun h c => (h * 33 + c.toNat) % 4294967296) 5381

/-- The deterministically-ordered healthy list that `ip_hash` indexes into:
healthy instance ids in ascending order. -/
def sortedHealthyIds (s : Snapshot) : List Nat :=
  List.insertionSort (· ≤ ·) ((healthySubset s).map BackendInstance.id)

/-- Modelled from the spec: `ip_hash` of §4.2 — index
`hash mod (number of healthy instances)` into the ordered healthy list. -/
def selectIpHash (s : Snapshot) (key : List Char) : Option Nat :=
  let ids := sortedHealthyIds s
  if ids.isEmpty then none
  else ids.get? (stableHash key % ids.length)

/-- Credit balance recorded for an instance id (0 if absent). -/
def creditOf (credits : List (Nat × ℤ)) (i : Nat) : ℤ :=
  (((credits.find? (fun p => p.1 == i)).map Prod.snd).getD 0)

/-- Modelled from the spec: `weighted` of §4.2 — every healthy instance
accrues `weight` credits for the round, the highest balance (lowest id on a
tie, an implementation choice §9 leaves open) is chosen and debited one
unit. -/
def selectWeighted (s : Snapshot) (st : LBState) : Option Nat × LBState :=
  match healthySubset s with
  | [] => (none, st)
  | h :: t =>
      let bal := fun inst : BackendInstance =>
        creditOf st.credits inst.id + inst.weight
      let best := t.foldl
        (fun b x =>
          if bal b < bal x || (bal x == bal b && x.id < b.id) then x else b) h
      let newCredits := (h :: t).map fun inst =>
        (inst.id, bal inst - (if inst.id == best.id then 1 else 0))
      (some best.id, { st with credits := newCredits })

/-- Modelled from the spec: the load balancer contract
`select(snapshot, request_context) -> instance_id | NoHealthyInstance` of
§4.2, dispatching on the configured strategy.  `none` is the
`NoHealthyInstance` outcome; the function is total, so no call blocks or
throws. -/
def select (strat : Strategy) (s : Snapshot) (st : LBState)
    (clientKey : List Char) : Option Nat × LBState :=
  match strat with
  | .round_robin =>
      let r := selectRR s st.cursor
      (r.1.map BackendInstance.id, { st with cursor := r.2 })
  | .least_conn => ((selectLeastConn s).map BackendInstance.id, st)
  | .ip_hash => (selectIpHash s clientKey, st)
  | .weighted => selectWeighted s st

/-- N consecutive round-robin selections against a fixed snapshot, returning
the selections in order and the final cursor. -/
def runRR (s : Snapshot) (cursor : Nat) : Nat → List (Option BackendInstance) × Nat
  | 0 => ([], cursor)
  | n + 1 =>
      let r := selectRR s cursor
      let rest := runRR s r.2 n
      (r.1 :: rest.1, rest.2)

/-- Number of selections in a run that picked the instance with a given id. -/
def countIdSel (results : List (Option BackendInstance)) (targetId : Nat) : Nat :=
  results.countP (fun r => (r.map BackendInstance.id) == some targetId)

/-- Modelled from the spec: the rate-limit parameters of §6 and the
`RateLimitConfig` sample of `DEPLOYMENT.md` (lines 140-144), for
`middleware/rate_limiting.py` missing from `src/`. -/
structure RateLimitConfig where
  requestsPerSecond : ℚ
  burstSize : ℚ
  maxRequestsPerWindow : Nat
deriving DecidableEq

/-- Modelled from the spec: the `ClientBucket` record of §3 — real-valued
token count and last-refill timestamp. -/
structure ClientBucket where
  tokens : ℚ
  lastRefill : ℚ
deriving DecidableEq

/-- Modelled from the spec: the refill step of §4.3 — add
`elapsed * requests_per_second` tokens capped at `burst_size` and update
`last_refill`. -/
def refillBucket (cfg : RateLimitConfig) (b : ClientBucket) (now : ℚ) :
    ClientBucket :=
  { tokens := min cfg.burstSize (b.tokens + (now - b.lastRefill) * cfg.requestsPerSecond),
    lastRefill := now }

/-- Modelled from the spec: the outcome of the admission contract
`admit(client_key) -> Admitted | Rejected(retry_after)` of §4.3. -/
inductive AdmissionDecision where
  | accepted
  | rejected (retryAfter : ℚ)
deriving DecidableEq

/-- Modelled from the spec: one token-bucket admission check of §4.3 for a
single bucket (the spec's `admit`): refill, then consume one token if at
least one is available, else reject with
`retry_after = (1 - tokens) / requests_per_second`. -/
def acceptRequest (cfg : RateLimitConfig) (b : ClientBucket) (now : ℚ) :
    AdmissionDecision × ClientBucket :=
  let b' := refillBucket cfg b now
  if 1 ≤ b'.tokens then (.accepted, { b' with tokens := b'.tokens - 1 })
  else (.rejected ((1 - b'.tokens) / cfg.requestsPerSecond), b')

/-- A sequence of admission checks against one bucket at the given times. -/
def runRequests (cfg : RateLimitConfig) (b : ClientBucket) :
    List ℚ → List AdmissionDecision × ClientBucket
  | [] => ([], b)
  | t :: ts =>
      let r := acceptRequest cfg b t
      let rest := runRequests cfg r.2 ts
      (r.1 :: rest.1, rest.2)

/-- Modelled from the spec: the `ScalingPolicy` record of §3, for
`infrastructure/scaling.py` missing from `src/`. -/
structure ScalingPolicy where
  minReplicas : Nat
  maxReplicas : Nat
  targetUtilization : ℚ
  cooldown : ℚ
deriving DecidableEq

/-- Modelled from the spec: the scaling controller's running state — current
replica count and the time of the last scaling action. -/
structure ScalerState where
  current : Nat
  lastAction : ℚ
deriving DecidableEq

/-- Direction of a scale intent. -/
inductive ScaleDirection where
  | up
  | down
deriving DecidableEq

/-- Modelled from the spec: a scale intent `ScaleIntent{direction, count}`
(§4.5), a desired pool-size change handed to the orchestrator. -/
structure ScaleIntent where
  direction : ScaleDirection
  count : Nat
deriving DecidableEq

/-- Modelled from the spec: desired replica count of §4.5,
`ceil(current_load / target_utilization)` clamped to
`[min_replicas, max_replicas]`. -/
def desiredReplicas (p : ScalingPolicy) (load : ℚ) : Nat :=
  max p.minReplicas (min p.maxReplicas ⌈load / p.targetUtilization⌉₊)

/-- Modelled from the spec: one periodic evaluation of the scaling
controller (§4.5), for `infrastructure/scaling.py` missing from `src/`.
An intent is emitted only when the desired count differs from the current
count and the time since the last scaling action exceeds `cooldown`; the
model books the emitted intent as the new current count (the orchestrator
fulfils it before the next evaluation). -/
def evaluateScaling (p : ScalingPolicy) (st : ScalerState) (now load : ℚ) :
    Option ScaleIntent × ScalerState :=
  let d := desiredReplicas p load
  if d ≠ st.current ∧ p.cooldown < now - st.lastAction then
    (some { direction := if st.current < d then .up else .down,
            count := if st.current < d then d - st.current else st.current - d },
     { current := d, lastAction := now })
  else (none, st)

/-- Times at which the controller emits a scale intent while consuming a
trace of (evaluation time, observed load) pairs. -/
def scaleEmissions (p : ScalingPolicy) (st : ScalerState) :
    List (ℚ × ℚ) → List ℚ
  | [] => []
  | (now, load) :: rest =>
      let r := evaluateScaling p st now load
      match r.1 with
      | some _ => now :: scaleEmissions p r.2 rest
      | none => scaleEmissions p r.2 rest

theorem applyEvent_bounds (s : Nat) (e : FormEvent) (h1 : 1 ≤ s) (h4 : s ≤ 4) :
    1 ≤ applyEvent s e ∧ applyEvent s e ≤ 4 := by
  cases e with
  | nextClick fd =>
      simp only [applyEvent, handleNext]
      split <;> omega
  | prevClick =>
      simp only [applyEvent, handlePrevious]
      omega

theorem foldl_applyEvent_bounds :
    ∀ (es : List FormEvent) (s : Nat), 1 ≤ s → s ≤ 4 →
      1 ≤ es.foldl applyEvent s ∧ es.foldl applyEvent s ≤ 4 := by
  intro es
  induction es with
  | nil => intro s h1 h4; simpa using ⟨h1, h4⟩
  | cons e es ih =>
      intro s h1 h4
      rw [List.foldl_cons]
      exact ih _ (applyEvent_bounds s e h1 h4).1 (applyEvent_bounds s e h1 h4).2

/-- Claim C8: `currentStep` stays in 1..4 under every sequence of
Next/Previous clicks from the initial state, and a Next click whose
validation fails leaves the step unchanged. -/
theorem loanApplication_step_bounds :
    (∀ events : List FormEvent, 1 ≤ runForm events ∧ runForm events ≤ 4) ∧
    (∀ (step : Nat) (fd : FormData), validateStep step fd = false →
      applyEvent step (FormEvent.nextClick fd) = step) := by
  constructor
  · intro es
    exact foldl_applyEvent_bounds es 1 le_rfl (by norm_num)
  · intro step fd h
    simp [applyEvent, handleNext, h]

/-- Concrete instantiation of `loanApplication_step_bounds`: a Next click on
the untouched form fails step-1 validation and does not advance. -/
theorem loanApplication_step_bounds_witness :
    (1 ≤ runForm [FormEvent.nextClick initialFormData] ∧
      runForm [FormEvent.nextClick initialFormData] ≤ 4) ∧
    validateStep 1 initialFormData = false ∧
    applyEvent 1 (FormEvent.nextClick initialFormData) = 1 :=
  ⟨loanApplication_step_bounds.1 _, by decide,
   loanApplication_step_bounds.2 1 initialFormData (by decide)⟩

/-- Claim C9: for 10-character PANs both maskings display the first 4
characters, four asterisks, and the last character, and agree with each
other; two PANs equal on those visible parts mask identically, so
characters 5-9 never influence the output. -/
theorem panMask_reveals_prefix_suffix :
    ∀ p q : List Char, p.length = 10 → q.length = 10 →
      p.take 4 = q.take 4 → p.drop 9 = q.drop 9 →
      maskPanReview p = p.take 4 ++ ['*', '*', '*', '*'] ++ p.drop 9 ∧
      maskPanCustom p = some (maskPanReview p) ∧
      maskPanReview p = maskPanReview q ∧
      maskPanCustom p = maskPanCustom q := by
  intro p q hp hq h4 h9
  have hpe : p.isEmpty = false := by
    cases p with
    | nil => simp at hp
    | cons a l => rfl
  have hqe : q.isEmpty = false := by
    cases q with
    | nil => simp at hq
    | cons a l => rfl
  refine ⟨by rw [maskPanReview, hp], ?_, ?_, ?_⟩
  · simp [maskPanCustom, maskPanReview, hpe]
  · rw [maskPanReview, maskPanReview, hp, hq, h4, h9]
  · simp only [maskPanCustom, hpe, hqe, Bool.false_eq_true, if_false]
    rw [hp, hq, h4, h9]

/-- Concrete instantiation of `panMask_reveals_prefix_suffix`: two PANs that
differ only in characters 5-9 produce the same masked output. -/
theorem panMask_reveals_prefix_suffix_witness :
    ("ABCDE1234F".toList.length = 10) ∧
    maskPanReview "ABCDE1234F".toList = maskPanReview "ABCDZ9999F".toList ∧
    maskPanCustom "ABCDE1234F".toList = maskPanCustom "ABCDZ9999F".toList :=
  ⟨by decide,
   (panMask_reveals_prefix_suffix "ABCDE1234F".toList "ABCDZ9999F".toList
     (by decide) (by decide) (by decide) (by decide)).2.2.1,
   (panMask_reveals_prefix_suffix "ABCDE1234F".toList "ABCDZ9999F".toList
     (by decide) (by decide) (by decide) (by decide)).2.2.2⟩

/-- Claim C10: `validateStep(3)` reports a `loanAmount` error exactly when
the amount is empty, below 50000, or above 5000000; every amount in
[50000, 5000000] passes. -/
theorem loanAmount_bounds :
    (∀ fd : FormData,
      ((validateStepErrors 3 fd).any (fun e => e.1 == "loanAmount")) = true ↔
        fd.loanAmount = none ∨
        ∃ q, fd.loanAmount = some q ∧ (q < 50000 ∨ 5000000 < q)) ∧
    (∀ (fd : FormData) (q : ℚ), fd.loanAmount = some q →
      50000 ≤ q → q ≤ 5000000 →
      ((validateStepErrors 3 fd).any (fun e => e.1 == "loanAmount")) = false) := by
  have key : ∀ fd : FormData,
      ((validateStepErrors 3 fd).any (fun e => e.1 == "loanAmount")) =
        (match fd.loanAmount with
         | none => true
         | some q => decide (q < 50000) || decide (5000000 < q)) := by
    intro fd
    rw [validateStepErrors]
    rcases fd.loanAmount with _ | q
    · simp
    · by_cases h1 : q < 50000
      · simp [h1]
      · by_cases h2 : (5000000 : ℚ) < q
        · simp [h1, h2]
        · simp only [h1, h2, if_false, decide_eq_true_eq]
          simp [h1, h2]
          intro a b _ _ ha _
          simp [ha]
  constructor
  · intro fd
    rw [key]
    rcases h : fd.loanAmount with _ | q
    · simp
    · simp only [h]
      constructor
      · intro hg
        refine Or.inr ⟨q, rfl, ?_⟩
        rcases Bool.or_eq_true_iff.mp hg with h' | h'
        · exact Or.inl (of_decide_eq_true h')
        · exact Or.inr (of_decide_eq_true h')
      · rintro (h' | ⟨q', hq', h'⟩)
        · exact absurd h' (by simp)
        · injection hq' with hqq
          subst hqq
          rcases h' with h' | h'
          · exact Bool.or_eq_true_iff.mpr (Or.inl (decide_eq_true h'))
          · exact Bool.or_eq_true_iff.mpr (Or.inr (decide_eq_true h'))
  · intro fd q hq hlo hhi
    rw [key, hq]
    simp only [decide_eq_false (not_lt.mpr hlo), decide_eq_false (not_lt.mpr hhi),
      Bool.or_false]

/-- Concrete instantiation of `loanAmount_bounds`: an amount of 100000 in
the valid range produces no `loanAmount` error. -/
theorem loanAmount_bounds_witness :
    ({ initialFormData with loanAmount := some 100000 } : FormData).loanAmount
        = some 100000 ∧
    (50000 : ℚ) ≤ 100000 ∧ (100000 : ℚ) ≤ 5000000 ∧
    ((validateStepErrors 3 { initialFormData with loanAmount := some 100000 }).any
      (fun e => e.1 == "loanAmount")) = false :=
  ⟨rfl, by decide, by decide,
   loanAmount_bounds.2 { initialFormData with loanAmount := some 100000 } 100000
     rfl (by decide) (by decide)⟩

/-- Claim C3: with an empty healthy subset every strategy's `select`
returns `NoHealthyInstance` (the total function returns `none`; nothing
blocks or throws). -/
theorem select_noHealthyInstance :
    ∀ (strat : Strategy) (s : Snapshot) (st : LBState) (key : List Char),
      healthySubset s = [] → (select strat s st key).1 = none := by
  intro strat s st key h
  cases strat <;>
    simp [select, selectRR, selectLeastConn, selectIpHash, sortedHealthyIds,
      selectWeighted, h]

/-- Concrete instantiation of `select_noHealthyInstance`: a snapshot whose
two instances are both `UNHEALTHY` yields no selection. -/
theorem select_noHealthyInstance_witness :
    healthySubset [⟨1, 1, HealthState.unhealthy, 0⟩,
      ⟨2, 1, HealthState.unhealthy, 5⟩] = [] ∧
    (select Strategy.least_conn
      [⟨1, 1, HealthState.unhealthy, 0⟩, ⟨2, 1, HealthState.unhealthy, 5⟩]
      ⟨0, []⟩ "203.0.113.5".toList).1 = none :=
  ⟨by decide,
   select_noHealthyInstance Strategy.least_conn _ ⟨0, []⟩ "203.0.113.5".toList
     (by decide)⟩

/-- Claim C4 counterexample: an instance already `UNHEALTHY` whose
consecutive-failure counter reaches `failure_threshold = 3` on a probe
failure undergoes no transition toward `UNHEALTHY`, so the unconditional
"exactly when the counter reaches failure_threshold" fails. -/
theorem healthMachine_threshold_at_unhealthy :
    (⟨3, 3⟩ : HealthConfig).failureThreshold ≤ 2 + 1 ∧
    (markProbeResult ⟨3, 3⟩ ⟨HealthState.unhealthy, 2, 0⟩ false).state =
      HealthState.unhealthy ∧
    ¬ healthRank (markProbeResult ⟨3, 3⟩ ⟨HealthState.unhealthy, 2, 0⟩ false).state <
        healthRank HealthState.unhealthy := by
  decide

/-- Claim C4 (amended): every probe outcome changes the state by at most one
step along the chain; from a state that is not already `UNHEALTHY` a
transition toward `UNHEALTHY` happens exactly when the consecutive-failure
counter reaches `failure_threshold` (each failure resetting the
consecutive-success counter), and dually for transitions toward `HEALTHY`
from a state that is not already `HEALTHY`. -/
theorem healthMachine_one_step :
    ∀ (cfg : HealthConfig) (h : HealthTrack) (success : Bool),
      (healthRank (markProbeResult cfg h success).state ≤ healthRank h.state + 1 ∧
       healthRank h.state ≤ healthRank (markProbeResult cfg h success).state + 1) ∧
      (healthRank (markProbeResult cfg h success).state < healthRank h.state ↔
        (success = false ∧ cfg.failureThreshold ≤ h.consecFail + 1 ∧
         h.state ≠ HealthState.unhealthy)) ∧
      (healthRank h.state < healthRank (markProbeResult cfg h success).state ↔
        (success = true ∧ cfg.successThreshold ≤ h.consecSucc + 1 ∧
         h.state ≠ HealthState.healthy)) ∧
      (markProbeResult cfg h false).consecSucc = 0 := by
  intro cfg h success
  rcases h with ⟨st, cf, cs⟩
  cases success <;> cases st <;>
    simp only [markProbeResult, stepTowardUnhealthy, stepTowardHealthy, healthRank,
      Bool.false_eq_true, if_false, if_true] <;>
    split_ifs <;>
    simp_all [healthRank, stepTowardUnhealthy, stepTowardHealthy]

theorem lcStep_cases (b x : BackendInstance) : lcStep b x = b ∨ lcStep b x = x := by
  rw [lcStep]
  split
  · exact Or.inr rfl
  · exact Or.inl rfl

theorem lcStep_le_left (b x : BackendInstance) : lcLE (lcStep b x) b := by
  rw [lcStep]
  split
  · rename_i hcond
    rcases Bool.or_eq_true_iff.mp hcond with h' | h'
    · exact Or.inl (of_decide_eq_true h')
    · rcases Bool.and_eq_true_iff.mp h' with ⟨h1, h2⟩
      exact Or.inr ⟨beq_iff_eq.mp h1, le_of_lt (of_decide_eq_true h2)⟩
  · exact Or.inr ⟨rfl, le_rfl⟩

theorem lcStep_le_right (b x : BackendInstance) : lcLE (lcStep b x) x := by
  rw [lcStep]
  split
  · exact Or.inr ⟨rfl, le_rfl⟩
  · rename_i hcond
    rcases Nat.lt_trichotomy b.activeConns x.activeConns with h' | h' | h'
    · exact Or.inl h'
    · refine Or.inr ⟨h', ?_⟩
      by_contra hid
      exact hcond (Bool.or_eq_true_iff.mpr (Or.inr (Bool.and_eq_true_iff.mpr
        ⟨beq_iff_eq.mpr h'.symm, decide_eq_true (by omega)⟩)))
    · exact absurd (Bool.or_eq_true_iff.mpr (Or.inl (decide_eq_true h'))) hcond

theorem lcLE_trans {a b c : BackendInstance} (h1 : lcLE a b) (h2 : lcLE b c) :
    lcLE a c := by
  rcases h1 with h1 | ⟨h1, h1'⟩ <;> rcases h2 with h2 | ⟨h2, h2'⟩
  · exact Or.inl (h1.trans h2)
  · exact Or.inl (h2 ▸ h1)
  · exact Or.inl (h1 ▸ h2)
  · exact Or.inr ⟨h1.trans h2, h1'.trans h2'⟩

theorem lc_foldl_spec :
    ∀ (l : List BackendInstance) (b : BackendInstance),
      (l.foldl lcStep b = b ∨ l.foldl lcStep b ∈ l) ∧
      lcLE (l.foldl lcStep b) b ∧
      ∀ x ∈ l, lcLE (l.foldl lcStep b) x := by
  intro l
  induction l with
  | nil =>
      intro b
      exact ⟨Or.inl rfl, Or.inr ⟨rfl, le_rfl⟩, by intro x hx; cases hx⟩
  | cons x xs ih =>
      intro b
      rw [List.foldl_cons]
      obtain ⟨hmem, hle, hall⟩ := ih (lcStep b x)
      refine ⟨?_, lcLE_trans hle (lcStep_le_left b x), ?_⟩
      · rcases hmem with hm | hm
        · rcases lcStep_cases b x with hc | hc
          · exact Or.inl (hm.trans hc)
          · exact Or.inr (by rw [hm, hc]; exact List.mem_cons_self x xs)
        · exact Or.inr (List.mem_cons_of_mem x hm)
      · intro y hy
        rcases List.mem_cons.mp hy with rfl | hy'
        · exact lcLE_trans hle (lcStep_le_right b y)
        · exact hall y hy'

/-- Claim C6: with a non-empty healthy subset, `least_conn` selects a
healthy instance whose active-connection count is minimal, and on ties the
lowest instance id. -/
theorem leastConn_minimal :
    ∀ s : Snapshot, healthySubset s ≠ [] →
      ∃ inst, selectLeastConn s = some inst ∧ inst ∈ healthySubset s ∧
        ∀ other ∈ healthySubset s,
          inst.activeConns ≤ other.activeConns ∧
          (other.activeConns = inst.activeConns → inst.id ≤ other.id) := by
  intro s hne
  rcases hh : healthySubset s with _ | ⟨h, t⟩
  · exact absurd hh hne
  · obtain ⟨hmem, hle, hall⟩ := lc_foldl_spec t h
    refine ⟨t.foldl lcStep h, by rw [selectLeastConn, hh], ?_, ?_⟩
    · rcases hmem with hm | hm
      · exact (by rw [hm]; exact List.mem_cons_self h t)
      · exact List.mem_cons_of_mem h hm
    · intro other hother
      have hlex : lcLE (t.foldl lcStep h) other := by
        rcases List.mem_cons.mp hother with rfl | hy'
        · exact hle
        · exact hall other hy'
      rcases hlex with h' | ⟨h', h''⟩
      · exact ⟨le_of_lt h', fun he => absurd he.symm (by omega)⟩
      · exact ⟨le_of_eq h', fun _ => h''⟩

theorem acceptRequest_at_zero (cfg : RateLimitConfig) (t : ℚ)
    (h1 : 1 ≤ t) (h2 : t ≤ cfg.burstSize) :
    acceptRequest cfg ⟨t, 0⟩ 0 = (AdmissionDecision.accepted, ⟨t - 1, 0⟩) := by
  have hmin : (refillBucket cfg ⟨t, 0⟩ 0).tokens = t := by
    simp only [refillBucket]
    have he : t + (0 - 0) * cfg.requestsPerSecond = t := by ring
    rw [he, min_eq_right h2]
  simp only [acceptRequest, refillBucket] at hmin ⊢
  rw [hmin, if_pos h1]

theorem runRequests_burst :
    ∀ (n : Nat) (t : ℚ), (n : ℚ) ≤ t → t ≤ 20 →
      runRequests ⟨10, 20, 1000⟩ ⟨t, 0⟩ (List.replicate n 0) =
        (List.replicate n AdmissionDecision.accepted, ⟨t - n, 0⟩) := by
  intro n
  induction n with
  | zero =>
      intro t h1 h2
      simp [runRequests]
  | succ n ih =>
      intro t h1 h2
      have hn1 : (n : ℚ) + 1 ≤ t := by push_cast at h1; linarith
      have hstep : acceptRequest ⟨10, 20, 1000⟩ ⟨t, 0⟩ 0 =
          (AdmissionDecision.accepted, ⟨t - 1, 0⟩) := by
        have h1' : (1 : ℚ) ≤ t := by
          have : (0 : ℚ) ≤ n := Nat.cast_nonneg n
          linarith
        exact acceptRequest_at_zero ⟨10, 20, 1000⟩ t h1' h2
      rw [List.replicate_succ, runRequests, hstep]
      have hrec := ih (t - 1) (by linarith) (by linarith)
      rw [hrec, List.replicate_succ]
      have : t - 1 - (n : ℚ) = t - (n + 1 : Nat) := by push_cast; ring
      rw [this]

/-- Claim C1: an admission check refills by elapsed time times the rate
capped at the burst size, updates `last_refill`, consumes one token exactly
when at least one is available and otherwise rejects with
`retry_after = (1 - tokens) / requests_per_second`; with rate 10 and burst
20, 20 instantaneous requests are all accepted, the 21st is rejected with
retry-after 1/10 s, and one second later 10 tokens are available again. -/
theorem tokenBucket_refill_and_decision :
    (∀ (cfg : RateLimitConfig) (b : ClientBucket) (now : ℚ),
      (acceptRequest cfg b now).2.lastRefill = now ∧
      (refillBucket cfg b now).tokens ≤ cfg.burstSize ∧
      ((acceptRequest cfg b now).1 = AdmissionDecision.accepted ↔
        1 ≤ (refillBucket cfg b now).tokens) ∧
      (acceptRequest cfg b now).1 =
        (if 1 ≤ (refillBucket cfg b now).tokens then AdmissionDecision.accepted
         else AdmissionDecision.rejected
           ((1 - (refillBucket cfg b now).tokens) / cfg.requestsPerSecond)) ∧
      (acceptRequest cfg b now).2.tokens =
        (if 1 ≤ (refillBucket cfg b now).tokens
         then (refillBucket cfg b now).tokens - 1
         else (refillBucket cfg b now).tokens)) ∧
    runRequests ⟨10, 20, 1000⟩ ⟨20, 0⟩ (List.replicate 20 0) =
      (List.replicate 20 AdmissionDecision.accepted, ⟨0, 0⟩) ∧
    (acceptRequest ⟨10, 20, 1000⟩ ⟨0, 0⟩ 0).1 =
      AdmissionDecision.rejected (1 / 10) ∧
    (refillBucket ⟨10, 20, 1000⟩ ⟨0, 0⟩ 1).tokens = 10 := by
  refine ⟨?_, ?_, ?_, ?_⟩
  · intro cfg b now
    by_cases h : 1 ≤ (refillBucket cfg b now).tokens
    · simp only [acceptRequest, if_pos h]
      refine ⟨rfl, ?_, ?_, ?_, ?_⟩
      · exact min_le_left _ _
      · simp [h]
      · trivial
      · trivial
    · simp only [acceptRequest, if_neg h]
      refine ⟨rfl, ?_, ?_, ?_, ?_⟩
      · exact min_le_left _ _
      · simp [h]
      · trivial
      · trivial
  · have h := runRequests_burst 20 20 (by norm_num) (by norm_num)
    rw [h]
    norm_num
  · have hmin : (refillBucket ⟨10, 20, 1000⟩ ⟨0, 0⟩ 0).tokens = 0 := by
      simp only [refillBucket]
      norm_num
    simp only [acceptRequest] at hmin ⊢
    rw [hmin]
    norm_num
  · simp only [refillBucket]
    norm_num

theorem sortedHealthyIds_perm_eq (s1 s2 : Snapshot)
    (h : List.Perm ((healthySubset s1).map BackendInstance.id)
      ((healthySubset s2).map BackendInstance.id)) :
    sortedHealthyIds s1 = sortedHealthyIds s2 := by
  have h1 : (sortedHealthyIds s1).Sorted (· ≤ ·) := List.sorted_insertionSort _ _
  have h2 : (sortedHealthyIds s2).Sorted (· ≤ ·) := List.sorted_insertionSort _ _
  have hp : List.Perm (sortedHealthyIds s1) (sortedHealthyIds s2) :=
    ((List.perm_insertionSort _ _).trans h).trans
      (List.perm_insertionSort _ _).symm
  exact List.eq_of_perm_of_sorted hp h1 h2

/-- Claim C7: `ip_hash` is a function of the client key and the healthy id
set only — two calls with the same key against snapshots whose healthy id
sets coincide (as multisets) return the same instance, and the strategy
state is untouched, so repeated calls while the healthy set is unchanged
always agree. -/
theorem ipHash_affinity :
    ∀ (s1 s2 : Snapshot) (st1 st2 : LBState) (key : List Char),
      List.Perm ((healthySubset s1).map BackendInstance.id)
        ((healthySubset s2).map BackendInstance.id) →
      (select Strategy.ip_hash s1 st1 key).1 =
        (select Strategy.ip_hash s2 st2 key).1 ∧
      (select Strategy.ip_hash s1 st1 key).2 = st1 := by
  intro s1 s2 st1 st2 key h
  refine ⟨?_, rfl⟩
  simp only [select, selectIpHash]
  rw [sortedHealthyIds_perm_eq s1 s2 h]

/-- Concrete instantiation of `ipHash_affinity`: the key `203.0.113.5`
selects the same instance from two snapshots listing the same three healthy
ids in different orders with different unhealthy padding. -/
theorem ipHash_affinity_witness :
    List.Perm ((healthySubset [⟨2, 1, HealthState.healthy, 0⟩,
        ⟨1, 1, HealthState.healthy, 4⟩, ⟨7, 1, HealthState.unhealthy, 0⟩,
        ⟨3, 1, HealthState.healthy, 2⟩]).map BackendInstance.id)
      ((healthySubset [⟨1, 2, HealthState.healthy, 9⟩,
        ⟨2, 2, HealthState.healthy, 1⟩, ⟨3, 2, HealthState.healthy, 0⟩]).map
        BackendInstance.id) ∧
    (select Strategy.ip_hash [⟨2, 1, HealthState.healthy, 0⟩,
        ⟨1, 1, HealthState.healthy, 4⟩, ⟨7, 1, HealthState.unhealthy, 0⟩,
        ⟨3, 1, HealthState.healthy, 2⟩] ⟨0, []⟩ "203.0.113.5".toList).1 =
      (select Strategy.ip_hash [⟨1, 2, HealthState.healthy, 9⟩,
        ⟨2, 2, HealthState.healthy, 1⟩, ⟨3, 2, HealthState.healthy, 0⟩]
        ⟨5, [(1, 3)]⟩ "203.0.113.5".toList).1 :=
  ⟨by decide,
   (ipHash_affinity _ _ ⟨0, []⟩ ⟨5, [(1, 3)]⟩ "203.0.113.5".toList (by decide)).1⟩

/-- Concrete instantiation of `leastConn_minimal`: among healthy instances
with connection counts 2, 1, 1 the tie at 1 resolves to the lower id. -/
theorem leastConn_minimal_witness :
    healthySubset [⟨3, 1, HealthState.healthy, 2⟩, ⟨1, 1, HealthState.healthy, 1⟩,
        ⟨2, 1, HealthState.healthy, 1⟩] ≠ [] ∧
    ∃ inst, selectLeastConn [⟨3, 1, HealthState.healthy, 2⟩,
        ⟨1, 1, HealthState.healthy, 1⟩, ⟨2, 1, HealthState.healthy, 1⟩] = some inst ∧
      inst ∈ healthySubset [⟨3, 1, HealthState.healthy, 2⟩,
        ⟨1, 1, HealthState.healthy, 1⟩, ⟨2, 1, HealthState.healthy, 1⟩] ∧
      ∀ other ∈ healthySubset [⟨3, 1, HealthState.healthy, 2⟩,
          ⟨1, 1, HealthState.healthy, 1⟩, ⟨2, 1, HealthState.healthy, 1⟩],
        inst.activeConns ≤ other.activeConns ∧
        (other.activeConns = inst.activeConns → inst.id ≤ other.id) :=
  ⟨by decide, leastConn_minimal _ (by decide)⟩

theorem scaleEmissions_chain :
    ∀ (p : ScalingPolicy) (trace : List (ℚ × ℚ)) (st : ScalerState),
      (scaleEmissions p st trace).Chain' (fun a b => p.cooldown < b - a) ∧
      (∀ t, (scaleEmissions p st trace).head? = some t →
        p.cooldown < t - st.lastAction) := by
  intro p trace
  induction trace with
  | nil =>
      intro st
      refine ⟨List.chain'_nil, ?_⟩
      intro t ht
      simp [scaleEmissions] at ht
  | cons e rest ih =>
      intro st
      obtain ⟨now, load⟩ := e
      by_cases hc : desiredReplicas p load ≠ st.current ∧
          p.cooldown < now - st.lastAction
      · have heval : evaluateScaling p st now load =
            (some { direction := if st.current < desiredReplicas p load
                      then ScaleDirection.up else ScaleDirection.down,
                    count := if st.current < desiredReplicas p load
                      then desiredReplicas p load - st.current
                      else st.current - desiredReplicas p load },
             { current := desiredReplicas p load, lastAction := now }) := by
          simp only [evaluateScaling, if_pos hc]
        have hemit : scaleEmissions p st ((now, load) :: rest) =
            now :: scaleEmissions p
              { current := desiredReplicas p load, lastAction := now } rest := by
          simp only [scaleEmissions, heval]
        obtain ⟨ihchain, ihhead⟩ :=
          ih { current := desiredReplicas p load, lastAction := now }
        rw [hemit]
        refine ⟨List.chain'_cons'.mpr ⟨?_, ihchain⟩, ?_⟩
        · intro y hy
          exact ihhead y hy
        · intro t ht
          rw [List.head?_cons, Option.some.injEq] at ht
          exact ht ▸ hc.2
      · have heval : evaluateScaling p st now load = (none, st) := by
          simp only [evaluateScaling, if_neg hc]
        have hemit : scaleEmissions p st ((now, load) :: rest) =
            scaleEmissions p st rest := by
          simp only [scaleEmissions, heval]
        rw [hemit]
        exact ih st

/-- Claim C5: over any evaluation trace, every pair of emitted scale
intents is separated by more than `cooldown`, however the load oscillates;
and an intent is emitted exactly when the desired count differs from the
current count and more than `cooldown` has passed since the last scaling
action. -/
theorem scaling_cooldown_spacing :
    (∀ (p : ScalingPolicy) (st : ScalerState) (trace : List (ℚ × ℚ)),
      0 ≤ p.cooldown →
      (scaleEmissions p st trace).Pairwise (fun a b => p.cooldown < b - a)) ∧
    (∀ (p : ScalingPolicy) (st : ScalerState) (now load : ℚ),
      (evaluateScaling p st now load).1.isSome = true ↔
        (desiredReplicas p load ≠ st.current ∧
         p.cooldown < now - st.lastAction)) := by
  constructor
  · intro p st trace hcd
    haveI : IsTrans ℚ (fun a b => p.cooldown < b - a) := ⟨fun a b c hab hbc => by
      show p.cooldown < c - a
      have h1 : p.cooldown < b - a := hab
      have h2 : p.cooldown < c - b := hbc
      linarith⟩
    rw [← List.chain'_iff_pairwise]
    exact (scaleEmissions_chain p trace st).1
  · intro p st now load
    by_cases hc : desiredReplicas p load ≠ st.current ∧
        p.cooldown < now - st.lastAction
    · simp only [evaluateScaling, if_pos hc, Option.isSome_some]
      exact iff_of_true trivial hc
    · simp only [evaluateScaling, if_neg hc, Option.isSome_none]
      exact iff_of_false (by simp) hc

/-- Concrete instantiation of `scaling_cooldown_spacing`: with cooldown 5
and oscillating load, the trace emits at times 10 and 20 only, spaced more
than 5 apart. -/
theorem scaling_cooldown_spacing_witness :
    (0 : ℚ) ≤ (⟨1, 10, 1, 5⟩ : ScalingPolicy).cooldown ∧
    (scaleEmissions ⟨1, 10, 1, 5⟩ ⟨1, 0⟩
      [(10, 3), (12, 1), (20, 1)]).Pairwise
      (fun a b => (⟨1, 10, 1, 5⟩ : ScalingPolicy).cooldown < b - a) :=
  ⟨by decide,
   scaling_cooldown_spacing.1 ⟨1, 10, 1, 5⟩ ⟨1, 0⟩ [(10, 3), (12, 1), (20, 1)]
     (by decide)⟩

theorem runRR_fst (s : Snapshot) :
    ∀ (N c : Nat), healthySubset s ≠ [] →
      (runRR s c N).1 =
        (List.range N).map
          (fun j => (healthySubset s).get? ((c + j) % (healthySubset s).length)) := by
  intro N
  induction N with
  | zero =>
      intro c h
      simp [runRR]
  | succ n ih =>
      intro c h
      have hne : (healthySubset s).isEmpty = false := by
        cases hh : healthySubset s with
        | nil => exact absurd hh h
        | cons a t => rfl
      simp only [runRR, selectRR, hne, Bool.false_eq_true, if_false]
      rw [ih ((c + 1) % (healthySubset s).length) h]
      rw [List.range_succ_eq_map, List.map_cons, List.map_map]
      refine congrArg₂ _ (by rw [Nat.add_zero]) ?_
      apply List.map_congr_left
      intro j _
      simp only [Function.comp_apply]
      have : ((c + 1) % (healthySubset s).length + j) % (healthySubset s).length =
          (c + Nat.succ j) % (healthySubset s).length := by
        rw [Nat.mod_add_mod]
        congr 1
        omega
      rw [this]

theorem countIdSel_run (s : Snapshot) (c₀ N i : Nat)
    (hi : i < (healthySubset s).length)
    (hnd : ((healthySubset s).map BackendInstance.id).Nodup) :
    countIdSel (runRR s c₀ N).1 (((healthySubset s).get ⟨i, hi⟩).id) =
      (List.range N).countP
        (fun j => (c₀ + j) % (healthySubset s).length == i) := by
  have hne : healthySubset s ≠ [] := by
    intro h0
    rw [h0] at hi
    exact absurd hi (by simp)
  have hk : 0 < (healthySubset s).length := by omega
  rw [countIdSel, runRR_fst s N c₀ hne, List.countP_map]
  apply List.countP_congr
  intro j _
  have hlt : (c₀ + j) % (healthySubset s).length < (healthySubset s).length :=
    Nat.mod_lt _ hk
  simp only [Function.comp_apply, List.get?_eq_get hlt, Option.map_some',
    beq_iff_eq, Option.some.injEq]
  constructor
  · intro he
    have hmem1 : (healthySubset s).get
        ⟨(c₀ + j) % (healthySubset s).length, hlt⟩ ∈ healthySubset s :=
      List.get_mem _ _ _
    have hmem2 : (healthySubset s).get ⟨i, hi⟩ ∈ healthySubset s :=
      List.get_mem _ _ _
    have heq := List.inj_on_of_nodup_map hnd hmem1 hmem2 he
    have hfin := (List.Nodup.of_map _ hnd).get_inj_iff.mp heq
    exact congrArg Fin.val hfin
  · intro he
    have hfin : (⟨(c₀ + j) % (healthySubset s).length, hlt⟩ :
        Fin (healthySubset s).length) = ⟨i, hi⟩ := Fin.ext he
    rw [hfin]

theorem countP_range_eq_count (k i : Nat) (hi : i < k) (c₀ : Nat) :
    ∀ N, (List.range N).countP (fun j => (c₀ + j) % k == i) =
      Nat.count (· ≡ i [MOD k]) (c₀ + N) - Nat.count (· ≡ i [MOD k]) c₀ := by
  intro N
  induction N with
  | zero =>
      simp
  | succ n ih =>
      have hmono : Nat.count (· ≡ i [MOD k]) c₀ ≤ Nat.count (· ≡ i [MOD k]) (c₀ + n) :=
        Nat.count_monotone _ (Nat.le_add_right _ _)
      have hmod : ((c₀ + n) ≡ i [MOD k]) ↔ ((c₀ + n) % k = i) := by
        unfold Nat.ModEq
        rw [Nat.mod_eq_of_lt hi]
      have hassoc : c₀ + (n + 1) = (c₀ + n) + 1 := rfl
      have hstep : Nat.count (· ≡ i [MOD k]) ((c₀ + n) + 1) =
          Nat.count (· ≡ i [MOD k]) (c₀ + n) +
            if (c₀ + n) ≡ i [MOD k] then 1 else 0 :=
        Nat.count_succ _ (c₀ + n)
      rw [List.range_succ, List.countP_append, ih, hassoc, hstep]
      by_cases hc : (c₀ + n) % k = i
      · rw [if_pos (hmod.mpr hc)]
        have hone : (List.countP (fun j => (c₀ + j) % k == i) [n]) = 1 := by
          simp [List.countP_cons, hc]
        rw [hone]
        omega
      · rw [if_neg (fun hmem => hc (hmod.mp hmem))]
        have hzero : (List.countP (fun j => (c₀ + j) % k == i) [n]) = 0 := by
          simp [List.countP_cons, hc]
        rw [hzero]
        omega

theorem count_sub_floor_ceil (k i c₀ N : Nat) (hk : 0 < k) (hi : i < k) :
    Nat.count (· ≡ i [MOD k]) (c₀ + N) - Nat.count (· ≡ i [MOD k]) c₀ = N / k ∨
    Nat.count (· ≡ i [MOD k]) (c₀ + N) - Nat.count (· ≡ i [MOD k]) c₀ =
      (N + k - 1) / k := by
  have hcN : Nat.count (· ≡ i [MOD k]) (c₀ + N) =
      (c₀ + N) / k + if i % k < (c₀ + N) % k then 1 else 0 :=
    Nat.count_modEq_card _ hk i
  have hc0 : Nat.count (· ≡ i [MOD k]) c₀ =
      c₀ / k + if i % k < c₀ % k then 1 else 0 :=
    Nat.count_modEq_card _ hk i
  rw [hcN, hc0, Nat.mod_eq_of_lt hi]
  have hdN := Nat.div_add_mod N k
  have hd0 := Nat.div_add_mod c₀ k
  have hmN : N % k < k := Nat.mod_lt _ hk
  have hm0 : c₀ % k < k := Nat.mod_lt _ hk
  by_cases hcase : c₀ % k + N % k < k
  · have hsum : c₀ + N = (c₀ % k + N % k) + k * (c₀ / k + N / k) := by
      rw [Nat.mul_add]
      omega
    have e1 : (c₀ + N) / k = c₀ / k + N / k := by
      rw [hsum, Nat.add_mul_div_left _ _ hk, Nat.div_eq_of_lt hcase, Nat.zero_add]
    have e2 : (c₀ + N) % k = c₀ % k + N % k := by
      rw [hsum, Nat.add_mul_mod_self_left, Nat.mod_eq_of_lt hcase]
    by_cases hz : N % k = 0
    · have e3 : (N + k - 1) / k = N / k := by
        have hh : N + k - 1 = (k - 1) + k * (N / k) := by omega
        rw [hh, Nat.add_mul_div_left _ _ hk,
          Nat.div_eq_of_lt (show k - 1 < k by omega), Nat.zero_add]
      rw [e1, e2, e3]
      clear hcN hc0 hsum e1 e2 e3 hdN hd0
      have hq1 : 0 ≤ N / k := Nat.zero_le _
      have hq2 : 0 ≤ c₀ / k := Nat.zero_le _
      split_ifs <;> omega
    · have e3 : (N + k - 1) / k = N / k + 1 := by
        have hh : N + k - 1 = (N % k - 1) + k * (N / k + 1) := by
          rw [Nat.mul_add, Nat.mul_one]
          omega
        rw [hh, Nat.add_mul_div_left _ _ hk,
          Nat.div_eq_of_lt (show N % k - 1 < k by omega), Nat.zero_add]
      rw [e1, e2, e3]
      clear hcN hc0 hsum e1 e2 e3 hdN hd0
      have hq1 : 0 ≤ N / k := Nat.zero_le _
      have hq2 : 0 ≤ c₀ / k := Nat.zero_le _
      split_ifs <;> omega
  · have hsum : c₀ + N = (c₀ % k + N % k - k) + k * (c₀ / k + N / k + 1) := by
      rw [Nat.mul_add, Nat.mul_add, Nat.mul_one]
      omega
    have hrem : c₀ % k + N % k - k < k := by omega
    have e1 : (c₀ + N) / k = c₀ / k + N / k + 1 := by
      rw [hsum, Nat.add_mul_div_left _ _ hk, Nat.div_eq_of_lt hrem, Nat.zero_add]
    have e2 : (c₀ + N) % k = c₀ % k + N % k - k := by
      rw [hsum, Nat.add_mul_mod_self_left, Nat.mod_eq_of_lt hrem]
    have e3 : (N + k - 1) / k = N / k + 1 := by
      have hh : N + k - 1 = (N % k - 1) + k * (N / k + 1) := by
        rw [Nat.mul_add, Nat.mul_one]
        omega
      rw [hh, Nat.add_mul_div_left _ _ hk, Nat.div_eq_of_lt (by omega), Nat.zero_add]
    rw [e1, e2, e3]
    clear hcN hc0 hsum e1 e2 e3 hdN hd0
    have hq1 : 0 ≤ N / k := Nat.zero_le _
    have hq2 : 0 ≤ c₀ / k := Nat.zero_le _
    split_ifs <;> omega

/-- Claim C2: over a fixed snapshot with distinct healthy ids, N round-robin
selections give every healthy instance either ⌊N/k⌋ or ⌈N/k⌉ of them; each
selection advances the cursor by exactly one modulo the healthy count
(wrapping at the end of the list), and only healthy instances are ever
selected (unhealthy ones are skipped without extra advances). -/
theorem roundRobin_fairness :
    (∀ (s : Snapshot) (c₀ N i : Nat) (hi : i < (healthySubset s).length),
      ((healthySubset s).map BackendInstance.id).Nodup →
      (countIdSel (runRR s c₀ N).1 (((healthySubset s).get ⟨i, hi⟩).id) =
          N / (healthySubset s).length ∨
       countIdSel (runRR s c₀ N).1 (((healthySubset s).get ⟨i, hi⟩).id) =
          (N + (healthySubset s).length - 1) / (healthySubset s).length)) ∧
    (∀ (s : Snapshot) (c : Nat), healthySubset s ≠ [] →
      (selectRR s c).2 = (c + 1) % (healthySubset s).length) ∧
    (∀ (s : Snapshot) (c : Nat) (inst : BackendInstance),
      (selectRR s c).1 = some inst → inst ∈ healthySubset s) := by
  refine ⟨?_, ?_, ?_⟩
  · intro s c₀ N i hi hnd
    have hk : 0 < (healthySubset s).length := by omega
    rw [countIdSel_run s c₀ N i hi hnd,
      countP_range_eq_count (healthySubset s).length i hi c₀ N]
    exact count_sub_floor_ceil (healthySubset s).length i c₀ N hk hi
  · intro s c h
    have hne : (healthySubset s).isEmpty = false := by
      cases hh : healthySubset s with
      | nil => exact absurd hh h
      | cons a t => rfl
    simp [selectRR, hne]
  · intro s c inst h
    by_cases he : (healthySubset s).isEmpty
    · rw [selectRR, if_pos he] at h
      exact absurd h (by simp)
    · rw [selectRR, if_neg he] at h
      exact List.get?_mem h

/-- Concrete instantiation of `roundRobin_fairness`: 7 selections over 3
healthy instances give the first instance 3 = ⌈7/3⌉ selections. -/
theorem roundRobin_fairness_witness :
    ((healthySubset [⟨1, 1, HealthState.healthy, 0⟩, ⟨2, 1, HealthState.healthy, 0⟩,
        ⟨3, 1, HealthState.healthy, 0⟩]).map BackendInstance.id).Nodup ∧
    (countIdSel (runRR [⟨1, 1, HealthState.healthy, 0⟩, ⟨2, 1, HealthState.healthy, 0⟩,
          ⟨3, 1, HealthState.healthy, 0⟩] 0 7).1
        (((healthySubset [⟨1, 1, HealthState.healthy, 0⟩, ⟨2, 1, HealthState.healthy, 0⟩,
          ⟨3, 1, HealthState.healthy, 0⟩]).get ⟨0, by decide⟩).id) =
        7 / (healthySubset [⟨1, 1, HealthState.healthy, 0⟩, ⟨2, 1, HealthState.healthy, 0⟩,
          ⟨3, 1, HealthState.healthy, 0⟩]).length ∨
     countIdSel (runRR [⟨1, 1, HealthState.healthy, 0⟩, ⟨2, 1, HealthState.healthy, 0⟩,
          ⟨3, 1, HealthState.healthy, 0⟩] 0 7).1
        (((healthySubset [⟨1, 1, HealthState.healthy, 0⟩, ⟨2, 1, HealthState.healthy, 0⟩,
          ⟨3, 1, HealthState.healthy, 0⟩]).get ⟨0, by decide⟩).id) =
        (7 + (healthySubset [⟨1, 1, HealthState.healthy, 0⟩, ⟨2, 1, HealthState.healthy, 0⟩,
          ⟨3, 1, HealthState.healthy, 0⟩]).length - 1) /
          (healthySubset [⟨1, 1, HealthState.healthy, 0⟩, ⟨2, 1, HealthState.healthy, 0⟩,
          ⟨3, 1, HealthState.healthy, 0⟩]).length) :=
  ⟨by decide,
   roundRobin_fairness.1 [⟨1, 1, HealthState.healthy, 0⟩, ⟨2, 1, HealthState.healthy, 0⟩,
     ⟨3, 1, HealthState.healthy, 0⟩] 0 7 0 (by decide) (by decide)⟩
